import Mathlib

/-!
Verification development for the `uab` asset-browser repository.

The definitions below are shallow embeddings of the Python sources:

* `src/uab/backend/server.py` — registration dict and delayed self-shutdown;
* `src/uab/core/assets.py` — `Asset` / `Texture` / `HDRI` metadata model;
* `src/uab/core/base_presenter.py` — LOD grouping of imported files;
* `src/uab/backend/asset_service.py` — the remote asset gateway.

Python `dict`s (insertion ordered, unique keys) are embedded as association
lists with explicit first-occurrence update/lookup/delete operations.
-/

namespace UAB

/-! ## Python dict primitives -/

/-- Update of a Python `dict` (`d[k] = v`): the value at the first occurrence
of the key is overwritten in place, a new key is appended at the end.  This is
exactly the insertion-ordered update semantics of `dict`. -/
def dictSet {α : Type} : List (String × α) → String → α → List (String × α)
  | [], k, v => [(k, v)]
  | (k₀, v₀) :: rest, k, v =>
    if k₀ = k then (k, v) :: rest else (k₀, v₀) :: dictSet rest k v

/-- Lookup in a Python `dict` (`d.get(k)`), first occurrence wins. -/
def dictGet? {α : Type} : List (String × α) → String → Option α
  | [], _ => none
  | (k₀, v) :: rest, k => if k₀ = k then some v else dictGet? rest k

/-- Removal from a Python `dict` (`d.pop(k, None)` / `del d[k]`), first
occurrence. -/
def dictDelete {α : Type} : List (String × α) → String → List (String × α)
  | [], _ => []
  | (k₀, v) :: rest, k => if k₀ = k then rest else (k₀, v) :: dictDelete rest k

/-- The key list of an embedded dict (`d.keys()`). -/
def keysOf {α : Type} (m : List (String × α)) : List String := m.map Prod.fst

theorem dictGet?_dictSet_self {α : Type} (m : List (String × α)) (k : String) (v : α) :
    dictGet? (dictSet m k v) k = some v := by
  induction m with
  | nil => simp [dictSet, dictGet?]
  | cons p rest ih =>
    obtain ⟨k₀, v₀⟩ := p
    by_cases h : k₀ = k
    · simp [dictSet, dictGet?, h]
    · simp [dictSet, dictGet?, h, ih]

theorem dictGet?_dictSet_ne {α : Type} (m : List (String × α)) (k k₁ : String) (v : α)
    (h : k₁ ≠ k) : dictGet? (dictSet m k v) k₁ = dictGet? m k₁ := by
  induction m with
  | nil => simp [dictSet, dictGet?, Ne.symm h]
  | cons p rest ih =>
    obtain ⟨k₀, v₀⟩ := p
    by_cases h₀ : k₀ = k
    · subst h₀
      simp [dictSet, dictGet?, h, Ne.symm h]
    · by_cases h₁ : k₀ = k₁
      · subst h₁
        simp [dictSet, dictGet?, h₀, h, Ne.symm h]
      · simp [dictSet, dictGet?, h₀, h₁, ih]

theorem dictSet_ne_nil {α : Type} (m : List (String × α)) (k : String) (v : α) :
    dictSet m k v ≠ [] := by
  cases m with
  | nil => simp [dictSet]
  | cons p rest =>
    obtain ⟨k₀, v₀⟩ := p
    by_cases h : k₀ = k <;> simp [dictSet, h]

theorem keysOf_dictSet {α : Type} (m : List (String × α)) (k : String) (v : α) :
    keysOf (dictSet m k v) = if k ∈ keysOf m then keysOf m else keysOf m ++ [k] := by
  induction m with
  | nil => simp [dictSet, keysOf]
  | cons p rest ih =>
    obtain ⟨k₀, v₀⟩ := p
    by_cases h₀ : k₀ = k
    · subst h₀
      simp [dictSet, keysOf]
    · simp only [keysOf] at ih
      by_cases h₁ : k ∈ List.map Prod.fst rest <;>
        simp [dictSet, keysOf, h₀, Ne.symm h₀, h₁, ih]

theorem keysOf_nodup_dictSet {α : Type} (m : List (String × α)) (k : String) (v : α)
    (h : (keysOf m).Nodup) : (keysOf (dictSet m k v)).Nodup := by
  rw [keysOf_dictSet]
  by_cases h₁ : k ∈ keysOf m
  · simpa [h₁] using h
  · simp [h₁, List.nodup_append, h]

theorem dictGet?_mem {α : Type} (m : List (String × α)) (k : String) (v : α)
    (h : dictGet? m k = some v) : (k, v) ∈ m := by
  induction m with
  | nil => simp [dictGet?] at h
  | cons p rest ih =>
    obtain ⟨k₀, v₀⟩ := p
    by_cases h₀ : k₀ = k
    · simp only [dictGet?, if_pos h₀, Option.some.injEq] at h
      subst h₀
      subst h
      exact List.mem_cons_self _ _
    · simp only [dictGet?, if_neg h₀] at h
      exact List.mem_cons_of_mem _ (ih h)

/-! ## Server lifecycle (`src/uab/backend/server.py`) -/

/-- State of the backend process: the module-level `clients` dict (client id to
registration time), the number of `_shutdown_after_time` threads that have been
started and have not yet reached their `os.kill` call, and whether the process
has been killed by SIGTERM. -/
structure ServerState where
  clients : List (String × Nat)
  pendingShutdowns : Nat
  terminated : Bool
deriving DecidableEq

/-- Initial state of a freshly spawned backend: `clients = {}`. -/
def serverInit : ServerState :=
  { clients := [], pendingShutdowns := 0, terminated := false }

/-- Request/thread events of the backend.  `shutdownFire` is a previously
started `_shutdown_after_time` thread reaching its
`os.kill(os.getpid(), signal.SIGTERM)` call after the grace sleep. -/
inductive ServerEvent where
  | register (cid : String) (t : Nat)
  | unregister (cid : String)
  | shutdownEndpoint
  | shutdownFire
deriving DecidableEq

/-- One event step of the backend.  `register` embeds the `/register_client`
handler (`clients[cid] = {"time": time.time()}`), `unregister` embeds
`/unregister_client` (`clients.pop(cid, None)` followed by starting a
`_shutdown_after_time` thread when `clients` became empty), `shutdownEndpoint`
embeds `/shutdown`.  A terminated process handles nothing.  `shutdownFire`
kills the process unconditionally: `_shutdown_after_time` sleeps and then
calls `os.kill` without re-reading `clients`. -/
def serverStep (s : ServerState) (e : ServerEvent) : ServerState :=
  if s.terminated then s
  else
    match e with
    | .register cid t => { s with clients := dictSet s.clients cid t }
    | .unregister cid =>
      let clients := dictDelete s.clients cid
      { s with
        clients := clients,
        pendingShutdowns :=
          if clients = [] then s.pendingShutdowns + 1 else s.pendingShutdowns }
    | .shutdownEndpoint => { s with pendingShutdowns := s.pendingShutdowns + 1 }
    | .shutdownFire =>
      if 0 < s.pendingShutdowns then
        { s with terminated := true, pendingShutdowns := s.pendingShutdowns - 1 }
      else s

/-- A run of the backend over a list of events. -/
def serverRun (s : ServerState) (es : List ServerEvent) : ServerState :=
  es.foldl serverStep s

/-- C1, counterexample.  Trace: client `A` registers and unregisters (the
registered set becomes empty and a delayed shutdown is scheduled), client `B`
registers during the grace window, then the scheduled shutdown fires.  The
process terminates although the registered-client set is `{B} ≠ ∅` at the
moment of termination, refuting the claim that the shutdown routine re-checks
the registration set before killing the process. -/
theorem C1_counterexample :
    (serverRun serverInit
        [.register "A" 0, .unregister "A", .register "B" 1, .shutdownFire]).terminated = true ∧
    (serverRun serverInit
        [.register "A" 0, .unregister "A", .register "B" 1, .shutdownFire]).clients ≠ [] := by
  decide

/-- C1, amended.  When a scheduled `_shutdown_after_time` thread fires on a
live server, it terminates the process unconditionally and in particular does
not consult or change the registered-client set: a registration arriving
during the grace window does not prevent termination. -/
theorem C1_amended_theorem (s : ServerState) (h₁ : s.terminated = false)
    (h₂ : 0 < s.pendingShutdowns) :
    (serverStep s .shutdownFire).terminated = true ∧
    (serverStep s .shutdownFire).clients = s.clients := by
  simp [serverStep, h₁, h₂]

/-- Witness for `C1_amended_theorem` at a concrete state with one registered
client and one pending shutdown. -/
theorem C1_amended_witness :
    (serverStep { clients := [("B", 1)], pendingShutdowns := 1, terminated := false }
        .shutdownFire).terminated = true ∧
    (serverStep { clients := [("B", 1)], pendingShutdowns := 1, terminated := false }
        .shutdownFire).clients = [("B", 1)] :=
  C1_amended_theorem
    { clients := [("B", 1)], pendingShutdowns := 1, terminated := false } rfl (by decide)

/-- C2: from the empty registration map, registering `a`, then `b`, then
unregistering `a` leaves exactly `{b}` registered and schedules no shutdown;
unregistering `b` afterward empties the map and schedules the delayed
shutdown. -/
theorem C2_coordinator (a b : String) (ta tb : Nat) (h : a ≠ b) :
    (serverRun serverInit [.register a ta, .register b tb, .unregister a]).clients = [(b, tb)] ∧
    (serverRun serverInit [.register a ta, .register b tb, .unregister a]).pendingShutdowns = 0 ∧
    (serverRun serverInit
        [.register a ta, .register b tb, .unregister a, .unregister b]).clients = [] ∧
    (serverRun serverInit
        [.register a ta, .register b tb, .unregister a, .unregister b]).pendingShutdowns = 1 := by
  simp [serverRun, serverStep, serverInit, dictSet, dictDelete, h, Ne.symm h]

/-- Witness for `C2_coordinator` with clients `"A"` and `"B"`. -/
theorem C2_coordinator_witness :
    (serverRun serverInit
        [.register "A" 0, .register "B" 1, .unregister "A"]).clients = [("B", 1)] ∧
    (serverRun serverInit
        [.register "A" 0, .register "B" 1, .unregister "A"]).pendingShutdowns = 0 ∧
    (serverRun serverInit
        [.register "A" 0, .register "B" 1, .unregister "A", .unregister "B"]).clients = [] ∧
    (serverRun serverInit
        [.register "A" 0, .register "B" 1, .unregister "A", .unregister "B"]).pendingShutdowns = 1 :=
  C2_coordinator "A" "B" 0 1 (by decide)

/-! ## Path helpers (`pathlib.PurePath.name/stem/suffix`)

Paths are embedded as plain strings and manipulated through their character
lists.  Only the `/` separator is modelled (the repository targets macOS). -/

/-- Final path component (`PurePath.name`): the characters after the last
`/`. -/
def pathName (p : String) : String :=
  String.mk ((p.data.reverse.takeWhile (fun c => c ≠ '/')).reverse)

/-- Stem of a file name (`PurePath.stem` applied to `pathName`).  CPython
drops the trailing `.`-suffix only when the last dot sits strictly inside the
name (`0 < i < len(name) - 1` for `i = name.rfind('.')`). -/
def pathStem (p : String) : String :=
  let name := pathName p
  let r := name.data.reverse
  let pre := r.takeWhile (fun c => c ≠ '.')
  match r.dropWhile (fun c => c ≠ '.') with
  | [] => name
  | _ :: rest =>
    if rest = [] then name
    else if pre = [] then name
    else String.mk rest.reverse

/-- Suffix of a file name (`PurePath.suffix` applied to `pathName`), including
the leading dot; `""` when the name has no suffix (same CPython condition as
`pathStem`). -/
def pathSuffix (p : String) : String :=
  let name := pathName p
  let r := name.data.reverse
  let pre := r.takeWhile (fun c => c ≠ '.')
  match r.dropWhile (fun c => c ≠ '.') with
  | [] => ""
  | _ :: rest =>
    if rest = [] then ""
    else if pre = [] then ""
    else String.mk ('.' :: pre.reverse)

/-- Character-wise ASCII lower-casing (`str.lower` restricted to the ASCII
file names the repository handles). -/
def strLower (s : String) : String := String.mk (s.data.map Char.toLower)

/-- Character-wise ASCII upper-casing (`str.upper` on ASCII names). -/
def strUpper (s : String) : String := String.mk (s.data.map Char.toUpper)

/-! ## LOD grouping (`src/uab/core/base_presenter.py`) -/

/-- Separator class of the resolution-suffix pattern `[._-](\d+k)$`. -/
def isSepChar (c : Char) : Bool := c = '.' || c = '_' || c = '-'

/-- Embeds `Presenter._extract_base_name_and_resolution`: strip a trailing
resolution suffix matching `[._-](\d+k)$` (case-insensitive `k`) from the
stem.  On a match the resolution is the digits plus a lower-cased `k` and the
base name is the stem without the separator and suffix; otherwise the whole
stem is the base name and there is no resolution.  Python's `\d` also accepts
non-ASCII decimal digits; the embedding uses ASCII digits, which agrees on
every file name the repository deals with. -/
def extractBaseAndRes (stem : String) : String × Option String :=
  match stem.data.reverse with
  | [] => (stem, none)
  | k :: rest =>
    if k = 'k' ∨ k = 'K' then
      let digits := rest.takeWhile (fun c => c.isDigit)
      match rest.dropWhile (fun c => c.isDigit) with
      | [] => (stem, none)
      | sep :: base =>
        if digits ≠ [] ∧ isSepChar sep then
          (String.mk base.reverse, some (String.mk (digits.reverse ++ ['k'])))
        else (stem, none)
    else (stem, none)

/-- Resolution key under which a file is grouped: its resolution tag, with the
empty string as the sentinel for "no resolution suffix" (see
`_group_files_by_lod`). -/
def fileGroupKey (fp : String) : String × String :=
  let br := extractBaseAndRes (pathStem fp)
  (br.1, br.2.getD "")

/-- One step of `Presenter._group_files_by_lod`: insert a file into the
grouping dict (`grouped[base_name][resolution_or_empty] = file_path`, with
`grouped` a `defaultdict(dict)`). -/
def groupInsert (acc : List (String × List (String × String))) (fp : String) :
    List (String × List (String × String)) :=
  let bk := fileGroupKey fp
  dictSet acc bk.1 (dictSet ((dictGet? acc bk.1).getD []) bk.2 fp)

/-- Embeds `Presenter._group_files_by_lod`: group the candidate files by base
name into a dict from resolution tag (empty-string sentinel for "no tag") to
path, in input order. -/
def groupFilesByLod (files : List String) : List (String × List (String × String)) :=
  files.foldl groupInsert []

/-- The fields of an imported asset that the grouping step determines (see
`Presenter.on_import_asset`, directory branch).  Name and tags come from
`utils.file_name_to_display_name` / `utils.tags_from_file_name` and are not
constrained by the claims, so they are not carried here. -/
structure ImportedAsset where
  path : String
  lods : List (String × String)
  current_lod : Option String
deriving DecidableEq

/-- Embeds the per-group body of `Presenter.on_import_asset`: a group with
more than one entry and at least one non-empty resolution tag becomes one
multi-LOD asset (base file = entry keyed by `""` if present — `dict.get("")
or ...` cannot pick the fallback on a present `pathlib.Path`, which is always
truthy — otherwise the first entry; LOD map = the non-empty-tag entries in
group order; `current_lod = list(lods.keys())[0] if lods else None`).  Any
other group is imported as a single plain asset from its first entry.  The
`headD` defaults stand in for `list(...)[0]`, which the guards keep on
non-empty lists. -/
def processGroup (inner : List (String × String)) : ImportedAsset :=
  if 1 < inner.length ∧ inner.any (fun e => e.1 ≠ "") then
    let baseFile :=
      match dictGet? inner "" with
      | some p => p
      | none => (inner.headD ("", "")).2
    let lods := inner.filter (fun e => e.1 ≠ "")
    { path := baseFile,
      lods := lods,
      current_lod := match lods with | [] => none | (k, _) :: _ => some k }
  else
    { path := (inner.headD ("", "")).2, lods := [], current_lod := none }

/-- Embeds the grouping part of `Presenter.on_import_asset` for an already
collected list of `.hdr`/`.exr` files: one asset per group, groups in
insertion order. -/
def importAssets (files : List String) : List ImportedAsset :=
  (groupFilesByLod files).map (fun g => processGroup g.2)

/-- Lexicographic code-point order on strings, as Python's `sorted` uses for
`str` keys. -/
def strLtB : List Char → List Char → Bool
  | [], [] => false
  | [], _ :: _ => true
  | _ :: _, [] => false
  | a :: as, b :: bs => if a < b then true else if b < a then false else strLtB as bs

/-- Insertion into a sorted list of strings. -/
def insertSorted (x : String) : List String → List String
  | [] => [x]
  | y :: ys => if strLtB y.data x.data then y :: insertSorted x ys else x :: y :: ys

/-- Insertion sort of strings in Python `sorted` order. -/
def sortStrings : List String → List String
  | [] => []
  | x :: xs => insertSorted x (sortStrings xs)

/-- Modelled from the spec: "set `current_lod` to the first sorted LOD key if
any, else unset" — the first key of the LOD map in sorted order. -/
def firstSortedLodKeySpec (lods : List (String × String)) : Option String :=
  (sortStrings (lods.map Prod.fst)).head?

theorem mem_dictSet_elim {α : Type} (m : List (String × α)) (k : String) (v : α) :
    ∀ p ∈ dictSet m k v, p = (k, v) ∨ p ∈ m := by
  induction m with
  | nil => simp [dictSet]
  | cons q rest ih =>
    obtain ⟨k₀, v₀⟩ := q
    intro p hp
    by_cases h₀ : k₀ = k
    · subst h₀
      simp only [dictSet, if_true, eq_self_iff_true, List.mem_cons] at hp
      rcases hp with hp | hp
      · exact Or.inl hp
      · exact Or.inr (List.mem_cons_of_mem _ hp)
    · simp only [dictSet, if_neg h₀, List.mem_cons] at hp
      rcases hp with hp | hp
      · exact Or.inr (by simp [hp])
      · rcases ih p hp with hp | hp
        · exact Or.inl hp
        · exact Or.inr (List.mem_cons_of_mem _ hp)

/-- Invariant of the grouping dict: every group is non-empty and its inner
resolution keys are pairwise distinct (it is a Python dict). -/
theorem groupFilesByLod_inner_inv (files : List String) :
    ∀ g ∈ groupFilesByLod files, g.2 ≠ [] ∧ (keysOf g.2).Nodup := by
  suffices h : ∀ (fs : List String) (acc : List (String × List (String × String))),
      (∀ g ∈ acc, g.2 ≠ [] ∧ (keysOf g.2).Nodup) →
      ∀ g ∈ fs.foldl groupInsert acc, g.2 ≠ [] ∧ (keysOf g.2).Nodup by
    exact h files [] (by simp)
  intro fs
  induction fs with
  | nil => intro acc hacc; simpa using hacc
  | cons f rest ih =>
    intro acc hacc g hg
    refine ih (groupInsert acc f) ?_ g hg
    intro g' hg'
    have hold : (keysOf ((dictGet? acc (fileGroupKey f).1).getD [])).Nodup := by
      cases hG : dictGet? acc (fileGroupKey f).1 with
      | none => simp [keysOf]
      | some i =>
        simpa using (hacc _ (dictGet?_mem acc (fileGroupKey f).1 i hG)).2
    simp only [groupInsert] at hg'
    rcases mem_dictSet_elim _ _ _ g' hg' with hg' | hg'
    · subst hg'
      exact ⟨dictSet_ne_nil _ _ _, keysOf_nodup_dictSet _ _ _ hold⟩
    · exact hacc g' hg'

/-- A group that does not satisfy the multi-LOD condition has exactly one
entry: with at least two entries and no non-empty tag, the inner dict would
hold the empty-string key twice. -/
theorem group_single_of_not_multi (inner : List (String × String))
    (hne : inner ≠ []) (hnd : (keysOf inner).Nodup)
    (hmulti : ¬(1 < inner.length ∧ inner.any (fun e => e.1 ≠ ""))) :
    ∃ e, inner = [e] := by
  match inner, hne with
  | [e], _ => exact ⟨e, rfl⟩
  | e₁ :: e₂ :: rest, _ =>
    exfalso
    have hlen : 1 < (e₁ :: e₂ :: rest).length := by simp
    have hany : ¬((e₁ :: e₂ :: rest).any (fun e => e.1 ≠ "") = true) :=
      fun hc => hmulti ⟨hlen, hc⟩
    simp only [List.any_cons, Bool.or_eq_true, decide_eq_true_eq, not_or] at hany
    have h₁ : e₁.1 = "" := by
      by_contra hc; exact hany.1 hc
    have h₂ : e₂.1 = "" := by
      by_contra hc; exact hany.2.1 hc
    simp [keysOf, List.nodup_cons, h₁, h₂] at hnd

/-- C3, counterexample.  The code sets `current_lod` to the first LOD key in
group-insertion order (`list(lods.keys())[0]`), not the first sorted key:
importing `rock_4k.exr` before `rock_1k.exr` yields `current_lod = "4k"`,
while the first sorted key is `"1k"`. -/
theorem C3_counterexample :
    ¬ ∀ (files : List String), ∀ a ∈ importAssets files,
        a.current_lod = firstSortedLodKeySpec a.lods := by
  intro h
  have hc := h ["rock_4k.exr", "rock_1k.exr"]
      { path := "rock_4k.exr",
        lods := [("4k", "rock_4k.exr"), ("1k", "rock_1k.exr")],
        current_lod := some "4k" } (by decide)
  exact absurd hc (by decide)

/-- C3, amended.  For every imported asset, `current_lod` is the first LOD key
in insertion order of the LOD map (the input-file order of the group's
non-empty resolution tags) when the map is non-empty, and unset otherwise; on
the sorted input `rock_1k/2k/4k` this yields the claimed single asset with
LOD map `{1k, 2k, 4k}` and `current_lod = "1k"`. -/
theorem C3_amended_theorem :
    (∀ (files : List String), ∀ a ∈ importAssets files,
        a.current_lod = a.lods.head?.map Prod.fst) ∧
    importAssets ["rock_1k.exr", "rock_2k.exr", "rock_4k.exr"] =
      [{ path := "rock_1k.exr",
         lods := [("1k", "rock_1k.exr"), ("2k", "rock_2k.exr"), ("4k", "rock_4k.exr")],
         current_lod := some "1k" }] := by
  constructor
  · intro files a ha
    simp only [importAssets, List.mem_map] at ha
    obtain ⟨g, hg, rfl⟩ := ha
    by_cases hm : 1 < g.2.length ∧ g.2.any (fun e => e.1 ≠ "")
    · simp only [processGroup, if_pos hm]
      cases h : g.2.filter (fun e => e.1 ≠ "") with
      | nil => simp [h]
      | cons e t => simp [h]
    · simp [processGroup, if_neg hm]
  · decide

/-- Witness for `C3_amended_theorem` on the out-of-order input
`[rock_4k.exr, rock_1k.exr]`. -/
theorem C3_amended_witness :
    (ImportedAsset.mk "rock_4k.exr" [("4k", "rock_4k.exr"), ("1k", "rock_1k.exr")]
        (some "4k")).current_lod =
      (ImportedAsset.mk "rock_4k.exr" [("4k", "rock_4k.exr"), ("1k", "rock_1k.exr")]
        (some "4k")).lods.head?.map Prod.fst :=
  C3_amended_theorem.1 ["rock_4k.exr", "rock_1k.exr"] _ (by decide)

/-- C4: a multi-LOD group's representative base path is the entry keyed by the
empty-string sentinel when present, otherwise the first entry, and its LOD map
is exactly the non-empty-tag entries; any other group of the grouping has
exactly one entry and produces one independent single asset per entry with no
LOD map; `["rock.exr", "rock_2k.exr"]` yields one asset with base path
`rock.exr` and LOD map `{"2k": "rock_2k.exr"}`. -/
theorem C4_grouping :
    (∀ inner : List (String × String),
        (1 < inner.length ∧ inner.any (fun e => e.1 ≠ "")) →
        (processGroup inner).path = (dictGet? inner "").getD (inner.headD ("", "")).2 ∧
        (processGroup inner).lods = inner.filter (fun e => e.1 ≠ "")) ∧
    (∀ (files : List String), ∀ g ∈ groupFilesByLod files,
        ¬(1 < g.2.length ∧ g.2.any (fun e => e.1 ≠ "")) →
        [processGroup g.2] = g.2.map (fun e => ImportedAsset.mk e.2 [] none)) ∧
    importAssets ["rock.exr", "rock_2k.exr"] =
      [{ path := "rock.exr", lods := [("2k", "rock_2k.exr")], current_lod := some "2k" }] := by
  refine ⟨?_, ?_, by decide⟩
  · intro inner hm
    constructor
    · simp only [processGroup, if_pos hm]
      cases h : dictGet? inner "" <;> simp [h]
    · simp only [processGroup, if_pos hm]
  · intro files g hg hnm
    obtain ⟨hne, hnd⟩ := groupFilesByLod_inner_inv files g hg
    obtain ⟨e, he⟩ := group_single_of_not_multi g.2 hne hnd hnm
    simp [processGroup, he]

/-- Witness for `C4_grouping` at the group of `["rock.exr", "rock_2k.exr"]`
and at the single-file group of `["sky.hdr"]`. -/
theorem C4_grouping_witness :
    ((processGroup [("", "rock.exr"), ("2k", "rock_2k.exr")]).path =
        (dictGet? [("", "rock.exr"), ("2k", "rock_2k.exr")] "").getD
          (([("", "rock.exr"), ("2k", "rock_2k.exr")] :
              List (String × String)).headD ("", "")).2 ∧
      (processGroup [("", "rock.exr"), ("2k", "rock_2k.exr")]).lods =
        [("", "rock.exr"), ("2k", "rock_2k.exr")].filter (fun e => e.1 ≠ "")) ∧
    [processGroup [("", "sky.hdr")]] =
      [("", "sky.hdr")].map (fun e => ImportedAsset.mk e.2 [] none) := by
  constructor
  · exact C4_grouping.1 [("", "rock.exr"), ("2k", "rock_2k.exr")] (by decide)
  · exact C4_grouping.2.1 ["sky.hdr"] ("sky", [("", "sky.hdr")]) (by decide) (by decide)

/-- C10: the grouping keeps exactly one path per (base name, resolution tag)
pair — the value stored at a pair is the last file in input order mapping to
that pair, so a later duplicate silently replaces an earlier one; two files
with the same stem in different directories produce a single asset from the
later file, and the earlier file produces no asset. -/
theorem C10_last_wins :
    (∀ (files : List String) (base tag : String),
        (dictGet? (groupFilesByLod files) base).bind (fun inner => dictGet? inner tag) =
          (files.filter (fun f => fileGroupKey f = (base, tag))).getLast?) ∧
    importAssets ["a/rock.exr", "b/rock.exr"] =
      [{ path := "b/rock.exr", lods := [], current_lod := none }] := by
  refine ⟨?_, by decide⟩
  intro files base tag
  induction files using List.reverseRecOn with
  | nil => simp [groupFilesByLod, dictGet?]
  | append_singleton fs f ih =>
    have hstep : groupFilesByLod (fs ++ [f]) = groupInsert (groupFilesByLod fs) f := by
      simp [groupFilesByLod, List.foldl_append]
    rw [hstep, List.filter_append]
    simp only [groupInsert]
    by_cases hb : base = (fileGroupKey f).1
    · subst hb
      rw [dictGet?_dictSet_self]
      simp only [Option.some_bind]
      by_cases ht : tag = (fileGroupKey f).2
      · subst ht
        rw [dictGet?_dictSet_self]
        have hfil : [f].filter (fun f' => fileGroupKey f' = ((fileGroupKey f).1, (fileGroupKey f).2)) = [f] := by
          simp
        rw [hfil, List.getLast?_concat]
      · rw [dictGet?_dictSet_ne _ _ _ _ ht]
        have hfil : [f].filter (fun f' => fileGroupKey f' = ((fileGroupKey f).1, tag)) = [] := by
          simp [Prod.ext_iff, Ne.symm ht]
        rw [hfil, List.append_nil, ← ih]
        cases hG : dictGet? (groupFilesByLod fs) (fileGroupKey f).1 <;> simp [hG, dictGet?]
    · rw [dictGet?_dictSet_ne _ _ _ _ hb]
      have hfil : [f].filter (fun f' => fileGroupKey f' = (base, tag)) = [] := by
        simp [Prod.ext_iff]
        intro hc
        exact absurd hc.symm hb
      rw [hfil, List.append_nil]
      exact ih

/-! ## Asset metadata model (`src/uab/core/assets.py`) -/

/-- Python truthiness fallback `x or []` on a list value. -/
def listOrNil {α : Type} : List α → List α
  | [] => []
  | l => l

theorem listOrNil_self {α : Type} (l : List α) : listOrNil l = l := by
  cases l <;> rfl

/-- In-memory fields of `Asset` as set by `Asset.__init__`.  The id is `none`
until the backend assigns one. -/
structure Asset where
  id : Option Int
  name : String
  path : String
  description : Option String
  preview_image_file_path : Option String
  tags : List String
  author : Option String
  date_created : Option String
  date_added : Option String
deriving DecidableEq

/-- The dict shape produced by `Asset.to_dict`: the nine fixed keys, with the
`id` key optionally popped by `to_api_payload` (outer `Option` = key present,
inner `Option Int` = the possibly-`None` value). -/
structure WirePayload where
  id : Option (Option Int)
  name : String
  description : Option String
  path : String
  preview_image_file_path : Option String
  tags : List String
  author : Option String
  date_created : Option String
  date_added : Option String
deriving DecidableEq

/-- Embeds `Asset.to_dict`.  `list(self.tags) if self.tags is not None else
[]` copies the list, whose value is `tags` itself (the constructor never
stores `None`). -/
def Asset.to_dict (a : Asset) : WirePayload :=
  { id := some a.id,
    name := a.name,
    description := a.description,
    path := a.path,
    preview_image_file_path := a.preview_image_file_path,
    tags := a.tags,
    author := a.author,
    date_created := a.date_created,
    date_added := a.date_added }

/-- Embeds `Asset.to_api_payload`: `to_dict`, then `payload.pop("id", None)`
when `include_id` is false. -/
def Asset.to_api_payload (a : Asset) (include_id : Bool) : WirePayload :=
  let payload := Asset.to_dict a
  if include_id then payload else { payload with id := none }

/-- Embeds `Asset.from_dict` for `cls = Asset` on a payload of `to_dict`
shape: `data.get("id")` yields `None` when the key was popped, the always
present keys are read directly, and `data.get("tags") or []` applies the
truthiness fallback.  The `data is None` guard cannot fire on a typed
payload. -/
def Asset.from_dict (data : WirePayload) : Asset :=
  { id := data.id.getD none,
    name := data.name,
    path := data.path,
    description := data.description,
    preview_image_file_path := data.preview_image_file_path,
    tags := listOrNil data.tags,
    author := data.author,
    date_created := data.date_created,
    date_added := data.date_added }

/-- Embeds `Asset.from_api_payload`, a thin wrapper around `from_dict`. -/
def Asset.from_api_payload (data : WirePayload) : Asset :=
  Asset.from_dict data

/-- In-memory fields of `Texture` (flattened over the inherited `Asset`
fields). -/
structure Texture where
  id : Option Int
  name : String
  path : String
  description : Option String
  preview_image_file_path : Option String
  tags : List String
  author : Option String
  date_created : Option String
  date_added : Option String
  color_space : Option String
  lods : List (String × String)
  current_lod : Option String
deriving DecidableEq

/-- Embeds `Texture.__init__`: `super().__init__(name, path)` leaves every
other `Asset` field at its default, `lods or {}` falls back to the empty dict
(`none` and `some []` both yield `[]`, as in Python). -/
def Texture.init (name path : String) (color_space : Option String)
    (lods : Option (List (String × String))) (current_lod : Option String) :
    Texture :=
  { id := none,
    name := name,
    path := path,
    description := none,
    preview_image_file_path := none,
    tags := [],
    author := none,
    date_created := none,
    date_added := none,
    color_space := color_space,
    lods := lods.getD [],
    current_lod := current_lod }

/-- Embeds `Texture.add_lod`: insert or overwrite a LOD level. -/
def Texture.add_lod (t : Texture) (lod_level lod_path : String) : Texture :=
  { t with lods := dictSet t.lods lod_level lod_path }

/-- Embeds `Texture.remove_lod`: when the level is present, delete it, clear
`current_lod` if it was the removed level, and return `True`; otherwise
return `False` and change nothing. -/
def Texture.remove_lod (t : Texture) (lod_level : String) : Texture × Bool :=
  if lod_level ∈ keysOf t.lods then
    ({ t with
        lods := dictDelete t.lods lod_level,
        current_lod := if t.current_lod = some lod_level then none else t.current_lod },
      true)
  else (t, false)

/-- Embeds the inherited `to_dict` on a `Texture`: the body is
`Asset.to_dict`, so only the base `Asset` fields are serialized —
`color_space`, `lods` and `current_lod` never reach the payload. -/
def Texture.to_dict (t : Texture) : WirePayload :=
  { id := some t.id,
    name := t.name,
    description := t.description,
    path := t.path,
    preview_image_file_path := t.preview_image_file_path,
    tags := t.tags,
    author := t.author,
    date_created := t.date_created,
    date_added := t.date_added }

/-- Embeds the inherited `to_api_payload` on a `Texture`. -/
def Texture.to_api_payload (t : Texture) (include_id : Bool) : WirePayload :=
  let payload := Texture.to_dict t
  if include_id then payload else { payload with id := none }

/-- Embeds the classmethod `Asset.from_dict` invoked with `cls = Texture` (and
`from_api_payload`, its thin wrapper): the body calls `cls(name=..., path=...,
asset_id=..., description=..., preview_image_file_path=..., tags=...,
author=..., date_created=..., date_added=...)`, but `Texture.__init__` accepts
only `name, path, color_space, lods, current_lod`, so Python raises
`TypeError` before any object is constructed. -/
def Texture.from_dict (_data : WirePayload) : Except String Texture :=
  Except.error "TypeError: Texture.__init__ got an unexpected keyword argument asset_id"

/-- Embeds `HDRI.__init__`: after `super().__init__(name, path, color_space)`
the line `self.file_type = super().path.suffix.upper()[1:]` runs.  The
`super()` proxy resolves attributes through the class MRO (Texture, Asset,
ABC, object) only, and `path` exists solely as an instance attribute, so
Python raises `AttributeError` (independently, `self.path` is a `str`, which
has no `.suffix`); the constructor never returns an object. -/
def HDRI.init (_name _path : String) (_color_space : Option String) :
    Except String Texture :=
  Except.error "AttributeError: super object has no attribute path"

/-- Modelled from the spec: an HDRI "adds a derived file-type tag (uppercased
extension without the dot)" — the value `HDRI.file_type` was intended to
hold, per the spec and the comment above the assignment. -/
def fileTypeSpec (path : String) : String :=
  String.mk (((pathSuffix path).data.map Char.toUpper).drop 1)

theorem dictSet_eq_append_of_not_mem {α : Type} (m : List (String × α)) (k : String) (v : α)
    (h : k ∉ keysOf m) : dictSet m k v = m ++ [(k, v)] := by
  induction m with
  | nil => simp [dictSet]
  | cons p rest ih =>
    obtain ⟨k₀, v₀⟩ := p
    simp only [keysOf, List.map_cons, List.mem_cons, not_or] at h
    simp only [dictSet, if_neg (Ne.symm h.1), List.cons_append, List.cons.injEq, true_and]
    exact ih h.2

theorem dictDelete_append_self {α : Type} (m : List (String × α)) (k : String) (v : α)
    (h : k ∉ keysOf m) : dictDelete (m ++ [(k, v)]) k = m := by
  induction m with
  | nil => simp [dictDelete]
  | cons p rest ih =>
    obtain ⟨k₀, v₀⟩ := p
    simp only [keysOf, List.map_cons, List.mem_cons, not_or] at h
    simp only [List.cons_append, dictDelete, if_neg (Ne.symm h.1), List.cons.injEq, true_and]
    exact ih h.2

/-- C5, counterexample.  A `Texture` with a color space, a LOD map and a
selected LOD does not survive the wire round-trip even with `include_id =
true`: the inherited `to_api_payload` drops the `Texture` fields and the
inherited `from_dict` raises `TypeError` instead of producing an equal
asset. -/
theorem C5_counterexample :
    Texture.from_dict
        (Texture.to_api_payload
          (Texture.init "t" "p" (some "sRGB") (some [("1k", "a")]) (some "1k")) true) ≠
      Except.ok (Texture.init "t" "p" (some "sRGB") (some [("1k", "a")]) (some "1k")) := by
  intro h
  exact Except.noConfusion h

/-- C5, amended.  For every base-class `Asset`, parsing the wire payload built
with `include_id = true` reproduces the asset in all attributes, and the `id`
key is present in the payload exactly when `include_id` is true; the
round-trip contract does not extend to the `Texture`/`HDRI` specializations,
whose extra fields are never serialized and whose inherited `from_dict`
raises `TypeError`. -/
theorem C5_amended_theorem :
    ∀ (a : Asset) (b : Bool),
      Asset.from_api_payload (Asset.to_api_payload a true) = a ∧
      ((Asset.to_api_payload a b).id).isSome = b := by
  intro a b
  constructor
  · cases a
    simp [Asset.from_api_payload, Asset.from_dict, Asset.to_api_payload, Asset.to_dict,
      listOrNil_self]
  · cases b <;> simp [Asset.to_api_payload, Asset.to_dict]

/-- C6, counterexample.  When the key is already bound, `add_lod` overwrites
the binding and the following `remove_lod` deletes the key, so the LOD map is
not restored to its prior state. -/
theorem C6_counterexample :
    (((Texture.init "t" "p" none (some [("1k", "a")]) none).add_lod "1k" "b").remove_lod
        "1k").1.lods ≠
      (Texture.init "t" "p" none (some [("1k", "a")]) none).lods := by
  decide

/-- C6, amended.  `add_lod` followed by `remove_lod` on the same key restores
the LOD map whenever the key was not bound before the `add_lod` (when it was,
the pair of calls drops the key, losing the prior binding); and whenever
`remove_lod` removes the level currently selected as `current_lod`, the
selector is cleared back to unset. -/
theorem C6_amended_theorem :
    (∀ (t : Texture) (level lpath : String), level ∉ keysOf t.lods →
        ((t.add_lod level lpath).remove_lod level).1.lods = t.lods) ∧
    (∀ (t : Texture) (level : String), level ∈ keysOf t.lods →
        t.current_lod = some level → ((t.remove_lod level).1).current_lod = none) := by
  constructor
  · intro t level lpath h
    have hset : dictSet t.lods level lpath = t.lods ++ [(level, lpath)] :=
      dictSet_eq_append_of_not_mem t.lods level lpath h
    have hmem : level ∈ keysOf (t.lods ++ [(level, lpath)]) := by simp [keysOf]
    simp [Texture.add_lod, Texture.remove_lod, hset, hmem,
      dictDelete_append_self t.lods level lpath h]
  · intro t level hmem hcur
    simp [Texture.remove_lod, hmem, hcur]

/-- Witness for `C6_amended_theorem`: a fresh key on an empty LOD map, and
removal of the currently selected LOD. -/
theorem C6_amended_witness :
    (((Texture.init "t" "p" none none none).add_lod "1k" "a").remove_lod "1k").1.lods =
      (Texture.init "t" "p" none none none).lods ∧
    (((Texture.init "t" "p" none (some [("1k", "a")]) (some "1k")).remove_lod
        "1k").1).current_lod = none := by
  constructor
  · exact C6_amended_theorem.1 (Texture.init "t" "p" none none none) "1k" "a" (by decide)
  · exact C6_amended_theorem.2 (Texture.init "t" "p" none (some [("1k", "a")]) (some "1k"))
      "1k" (by decide) (by decide)

/-- C8: constructing an HDRI never succeeds — `HDRI.__init__` raises
`AttributeError` on `super().path` instead of deriving the file-type tag —
while the intended derived tag of a path ending in `.exr` is `"EXR"`. -/
theorem C8_hdri_file_type :
    HDRI.init "sky" "sky.exr" none =
      Except.error "AttributeError: super object has no attribute path" ∧
    fileTypeSpec "sky.exr" = "EXR" := by
  exact ⟨rfl, by decide⟩

/-- C9: removing a level that is not in the LOD map returns `False` and leaves
the `Texture` completely unchanged. -/
theorem C9_remove_absent (t : Texture) (level : String)
    (h : level ∉ keysOf t.lods) : t.remove_lod level = (t, false) := by
  simp [Texture.remove_lod, h]

/-- Witness for `C9_remove_absent` on a texture binding only `"1k"`. -/
theorem C9_remove_absent_witness :
    (Texture.init "t" "p" none (some [("1k", "a")]) none).remove_lod "2k" =
      (Texture.init "t" "p" none (some [("1k", "a")]) none, false) :=
  C9_remove_absent (Texture.init "t" "p" none (some [("1k", "a")]) none) "2k" (by decide)

/-! ## Remote asset gateway (`src/uab/backend/asset_service.py`) -/

/-- Outcome of an HTTP call made through `requests`: a decoded JSON value, or
a raised `requests.exceptions.RequestException` (connection failure or a bad
status surfaced by `raise_for_status`). -/
inductive HttpOutcome (α : Type) where
  | ok (v : α)
  | requestError (msg : String)

/-- The dict shape of a backend asset response (the `AssetResponse` schema in
`src/uab/backend/app/api/schemas.py`); optional columns as `Option`, and `id`
as `Option` to mirror the tolerance of the `data.get("id")` reads. -/
structure ApiAssetPayload where
  id : Option Int
  name : String
  description : Option String
  path : String
  preview_image_file_path : Option String
  tags : Option (List String)
  author : Option String
  date_created : Option String
  date_added : Option String
  lods : Option (List (String × String))
  current_lod : Option String
  color_space : Option String
deriving DecidableEq

/-- Embeds `AssetService._detect_asset_type`, reduced to whether the `HDRI`
class is selected: empty path or any suffix other than `.hdr`/`.exr` selects
plain `Asset` (the `Texture` branch of `_build_asset_from_data` is
unreachable, as the source comments note). -/
def detectIsHdri (path : String) : Bool :=
  if path = "" then false
  else
    let ext := strLower (pathSuffix path)
    ext == ".hdr" || ext == ".exr"

/-- Result of `AssetService._build_asset_from_data`: a plain `Asset`, or (only
reachable if `HDRI.__init__` returned, which it never does) an HDRI. -/
inductive BuiltAsset where
  | base (a : Asset)
  | hdri (t : Texture)
deriving DecidableEq

/-- Embeds `AssetService._build_asset_from_data`.  For `.hdr`/`.exr` paths the
HDRI branch first constructs `HDRI(name, path, color_space)`; since
`HDRI.__init__` always raises (see `HDRI.init`), the branch propagates that
exception and its subsequent field assignments are unreachable.  Every other
payload goes through `Asset.from_api_payload`, whose `data.get` reads are
inlined here on the response payload shape (`data.get("tags") or []` is the
`listOrNil` fallback over an absent-or-present list). -/
def buildAssetFromData (d : ApiAssetPayload) : Except String BuiltAsset :=
  if detectIsHdri d.path then
    (HDRI.init d.name d.path d.color_space).map BuiltAsset.hdri
  else
    Except.ok (BuiltAsset.base
      { id := d.id,
        name := d.name,
        path := d.path,
        description := d.description,
        preview_image_file_path := d.preview_image_file_path,
        tags := listOrNil (d.tags.getD []),
        author := d.author,
        date_created := d.date_created,
        date_added := d.date_added })

/-- Embeds `AssetService._build_assets_from_response`: build each payload item
in order, letting the first exception escape. -/
def buildAssetsFromResponse (payload : List ApiAssetPayload) :
    Except String (List BuiltAsset) :=
  payload.mapM buildAssetFromData

/-- Embeds `AssetService.get_assets`.  The try block covers the HTTP call and
the response parsing, but the except clause catches only
`requests.exceptions.RequestException`, converting it to the empty-list
sentinel; a parse-time exception (an `Except.error` of the builder) is not
caught. -/
def get_assets (resp : HttpOutcome (List ApiAssetPayload)) :
    Except String (List BuiltAsset) :=
  match resp with
  | .ok data => buildAssetsFromResponse data
  | .requestError _ => Except.ok []

/-- Embeds `AssetService.get_asset_by_id`: `None` sentinel on a request
failure. -/
def get_asset_by_id (_asset_id : Int) (resp : HttpOutcome ApiAssetPayload) :
    Except String (Option BuiltAsset) :=
  match resp with
  | .ok data => (buildAssetFromData data).map some
  | .requestError _ => Except.ok none

/-- Embeds `AssetService.search_assets` (the query string only shapes the HTTP
request): empty-list sentinel on a request failure. -/
def search_assets (_text : String) (resp : HttpOutcome (List ApiAssetPayload)) :
    Except String (List BuiltAsset) :=
  match resp with
  | .ok data => (buildAssetsFromResponse data)
  | .requestError _ => Except.ok []

/-- Embeds `AssetService.add_asset_to_db`: posts
`asset.to_api_payload(include_id=False)` and parses the response; `None`
sentinel on a request failure. -/
def add_asset_to_db (a : Asset) (resp : HttpOutcome ApiAssetPayload) :
    Except String (Option BuiltAsset) :=
  let _payload := Asset.to_api_payload a false
  match resp with
  | .ok data => (buildAssetFromData data).map some
  | .requestError _ => Except.ok none

/-- Embeds `AssetService.remove_asset_from_db`: returns `None` on success and
on a request failure alike. -/
def remove_asset_from_db (_asset_id : Int) (resp : HttpOutcome Unit) :
    Except String Unit :=
  match resp with
  | .ok _ => Except.ok ()
  | .requestError _ => Except.ok ()

/-- Embeds `AssetService.update_asset`: `None` sentinel when the asset has no
id (guard before any network traffic) and on a request failure. -/
def update_asset (a : Asset) (resp : HttpOutcome ApiAssetPayload) :
    Except String (Option BuiltAsset) :=
  if a.id = none then Except.ok none
  else
    let _payload := Asset.to_api_payload a false
    match resp with
    | .ok data => (buildAssetFromData data).map some
    | .requestError _ => Except.ok none

/-- C7: a network failure (`requests.exceptions.RequestException`) during any
CRUD call of the gateway is caught inside the gateway and converted to the
documented sentinel — empty list for the list operations, `None` for the
single-asset operations (delete returns `None` on every path) — and no
exception escapes the gateway boundary on such a failure. -/
theorem C7_gateway_sentinels :
    ∀ (msg text : String) (i : Int) (a : Asset),
      get_assets (.requestError msg) = Except.ok [] ∧
      get_asset_by_id i (.requestError msg) = Except.ok none ∧
      search_assets text (.requestError msg) = Except.ok [] ∧
      add_asset_to_db a (.requestError msg) = Except.ok none ∧
      remove_asset_from_db i (.requestError msg) = Except.ok () ∧
      update_asset a (.requestError msg) = Except.ok none := by
  intro msg text i a
  refine ⟨rfl, rfl, rfl, rfl, rfl, ?_⟩
  cases h : a.id <;> simp [update_asset, h]

end UAB
